import Mathlib

/-!
Shallow embedding of `src/nat/mapped_tcp_socket/mod.rs` (crust): the
`MappingTcpSocket` NAT-traversal coordinator.  Pure data is translated
directly; the event loop, registry and cross-thread deliveries are modelled
as an explicit global state plus an event step function; Rust panics
(`expect` / `unwrap`) are modelled by `Option` with `none` for a panic;
`usize` arithmetic is `Nat` with explicit reduction modulo `2 ^ 64`.
-/

namespace Crust

/-- The modulus of `usize` arithmetic (release-mode wrapping). -/
def USIZE : Nat := 2 ^ 64

/-- `core::Context`: an opaque registry identifier. -/
abbrev Context := Nat

/-- `NatError`: opaque error values. -/
abbrev Err := Nat

/-- A socket address: an IPv4 address and a port, both opaque numbers. -/
structure SocketAddrRepr where
  ip : Nat
  port : Nat
deriving DecidableEq

/-- Modelled from the spec: `nat::MappedAddr` is defined outside this file's
source tree; per the spec it is "a candidate external socket address plus
provenance flag (`via_reflection: bool`)".  The constructor calls in
`mod.rs` (`MappedAddr::new(addr, bool)`) fix its two components. -/
structure MappedAddr where
  addr : SocketAddrRepr
  via_reflection : Bool
deriving DecidableEq

/-- `MappedAddr::new`. -/
def MappedAddr.new (a : SocketAddrRepr) (b : Bool) : MappedAddr := ⟨a, b⟩

/-- The coordinator state struct `MappingTcpSocket<F>` (mod.rs lines 40-49).
`socket` is `Option` of an opaque builder id; `finish` is the one-shot
continuation, present until consumed. -/
structure MappingTcpSocket where
  token : Nat
  context : Context
  socket : Option Nat
  igd_children : Nat
  stun_children : Finset Context
  mapped_addrs : List MappedAddr
  timeout_h : Nat
  finish : Option Unit
deriving DecidableEq

/-- The global state visible to the coordinator: the registry entries it
owns (`tokenReg` for `insert_context token`, `coordReg` for
`insert_state context`), the registry entries of reflection children
(`childReg`), the set of children that have been sent a terminate signal
(`signalled`), whether the coordinator's timer is still registered
(`timerActive`), and the log of continuation invocations (`fired`, each
entry the socket and address list handed over). -/
structure Core where
  tokenReg : Bool
  coordReg : Option MappingTcpSocket
  childReg : Finset Context
  signalled : Finset Context
  timerActive : Bool
  fired : List (Nat × List MappedAddr)
deriving DecidableEq

/-- `State::terminate` (mod.rs lines 188-197), including
`terminate_children` (lines 169-178): drain `stun_children`, signalling
every drained child still present in the registry; remove the coordinator's
token and context from the registry; clear the timeout; take the socket
(`expect` - a panic, modelled `none`, if absent); drain `mapped_addrs`;
take and invoke `finish` (`unwrap` - panic if absent). -/
def MappingTcpSocket.terminate (s : MappingTcpSocket) (g : Core) :
    Option (MappingTcpSocket × Core) :=
  let g1 : Core :=
    { g with
      signalled := g.signalled ∪ (s.stun_children ∩ g.childReg),
      tokenReg := false,
      coordReg := none,
      timerActive := false }
  let s1 := { s with stun_children := (∅ : Finset Context) }
  match s1.socket with
  | none => none
  | some sock =>
    match s1.finish with
    | none => none
    | some _ =>
      some ({ s1 with socket := none, mapped_addrs := [], finish := none },
            { g1 with fired := g1.fired ++ [(sock, s1.mapped_addrs)] })

/-- `State::timeout` (mod.rs lines 184-186): unconditionally `terminate`. -/
def MappingTcpSocket.timeout_handler (s : MappingTcpSocket) (g : Core) :
    Option (MappingTcpSocket × Core) :=
  s.terminate g

/-- `handle_stun_resp` (mod.rs lines 144-156): remove the child from
`stun_children`; on `Ok` push the reflected address with flag `true`; if
both child pools are now empty, `terminate`. -/
def MappingTcpSocket.handle_stun_resp (s : MappingTcpSocket) (g : Core)
    (child : Context) (res : Option SocketAddrRepr) :
    Option (MappingTcpSocket × Core) :=
  let s1 := { s with stun_children := s.stun_children.erase child }
  let s2 : MappingTcpSocket :=
    match res with
    | some a => { s1 with mapped_addrs := s1.mapped_addrs ++ [MappedAddr.new a true] }
    | none => s1
  if s2.stun_children = ∅ ∧ s2.igd_children = 0 then s2.terminate g
  else some (s2, g)

/-- `handle_igd_resp` (mod.rs lines 158-167): decrement `igd_children`
(usize wrapping), push the external address with flag `false`; if both
child pools are now empty, `terminate`. -/
def MappingTcpSocket.handle_igd_resp (s : MappingTcpSocket) (g : Core)
    (a : SocketAddrRepr) : Option (MappingTcpSocket × Core) :=
  let s1 := { s with
    igd_children := (s.igd_children + (USIZE - 1)) % USIZE,
    mapped_addrs := s.mapped_addrs ++ [MappedAddr.new a false] }
  if s1.stun_children = ∅ ∧ s1.igd_children = 0 then s1.terminate g
  else some (s1, g)

/-- Asynchronous completions delivered on the coordinator's event loop:
a successful gateway worker's cross-thread message (a failed worker sends
nothing), a reflection child's one-shot callback (`some` = success,
`none` = failure), and the firing of the registered timer. -/
inductive Event where
  | igdOk (addr : SocketAddrRepr)
  | stunResp (child : Context) (res : Option SocketAddrRepr)
  | timerFire
deriving DecidableEq

/-- After a handler runs on the `Rc`-shared coordinator record, the
registry still aliases the (mutated) record unless `terminate` removed the
entry; a removed entry stays removed. -/
def reinsert (p : MappingTcpSocket × Core) : Core :=
  match p.2.coordReg with
  | none => p.2
  | some _ => { p.2 with coordReg := some p.1 }

/-- One delivered event.  A gateway message re-resolves the coordinator by
context (`core.get_state`, mod.rs lines 87-90) and no-ops when absent; a
reflection callback upgrades the weak self-reference (lines 126-131),
which succeeds exactly while the registry holds the sole strong reference;
the timer delivery is routed through the token registration.  `none` is a
panic inside a handler. -/
def step (g : Core) (e : Event) : Option Core :=
  match e with
  | .igdOk a =>
    match g.coordReg with
    | none => some g
    | some s => (s.handle_igd_resp g a).map reinsert
  | .stunResp c r =>
    match g.coordReg with
    | none => some g
    | some s => (s.handle_stun_resp g c r).map reinsert
  | .timerFire =>
    if g.tokenReg then
      match g.coordReg with
      | none => some g
      | some s => (s.timeout_handler g).map reinsert
    else some g

/-- Run a whole interleaving of deliveries. -/
def run (g : Core) : List Event → Option Core
  | [] => some g
  | e :: es => (step g e).bind (fun g' => run g' es)

/-- `MappingContext` as consumed by `start`: the IPv4 interfaces, each with
an optional gateway handle, and the peer reflection-service addresses. -/
structure MappingContext where
  ifv4s : List (Nat × Option Nat)
  peer_listeners : List SocketAddrRepr

/-- Results of the external calls `start` makes, in program order: the main
reusable bind, the local-address resolution, the timer registration, and
per reflection peer (by position) the socket bind/stream/connect step and
the `GetExtAddr::start` call. -/
structure Env where
  bindRes : Except Err Nat
  addrRes : Except Err SocketAddrRepr
  timerRes : Except Err Nat
  peerSock : Nat → Except Err Nat
  peerChild : Nat → Except Err Context
  token : Nat
  context : Context

/-- The stun loop of `start` (mod.rs lines 121-136): per peer, a `try!`-ed
socket setup (failure aborts `start` with the error) and then a
`GetExtAddr::start` whose failure silently skips the peer.  Returns the
children started so far and the aborting error, if any. -/
def stunLoop (env : Env) : List SocketAddrRepr → Nat → List Context →
    List Context × Option Err
  | [], _, acc => (acc, none)
  | _ :: rest, i, acc =>
    match env.peerSock i with
    | .error e => (acc, some e)
    | .ok _ =>
      match env.peerChild i with
      | .ok child => stunLoop env rest (i + 1) (acc ++ [child])
      | .error _ => stunLoop env rest (i + 1) acc

/-- What `start` leaves behind: the gateway-mapping requests handed to
spawned worker threads (each the interface address `addr_igd`, mod.rs line
78), the reflection children successfully started, and either the
registered global state or the synchronous error. -/
structure StartResult where
  igdSpawns : List (Nat × Nat)
  stunStarted : List Context
  outcome : Except Err Core

/-- `MappingTcpSocket::start` (mod.rs lines 55-142), in program order:
bind, resolve the local address, spawn one gateway worker per interface
carrying a gateway (counting them), seed `mapped_addrs` with one
non-reflected entry per interface, register the timer (`try!` - after the
workers were spawned), run the stun loop, then register token and state. -/
def start (port : Nat) (mc : MappingContext) (env : Env) : StartResult :=
  match env.bindRes with
  | .error e => ⟨[], [], .error e⟩
  | .ok sock =>
    match env.addrRes with
    | .error e => ⟨[], [], .error e⟩
    | .ok addr =>
      let igdSpawns := mc.ifv4s.filterMap
        (fun p => p.2.map (fun _ => (p.1, addr.port)))
      let mapped_addrs := mc.ifv4s.map
        (fun p => MappedAddr.new ⟨p.1, addr.port⟩ false)
      match env.timerRes with
      | .error e => ⟨igdSpawns, [], .error e⟩
      | .ok th =>
        match stunLoop env mc.peer_listeners 0 [] with
        | (started, some e) => ⟨igdSpawns, started, .error e⟩
        | (started, none) =>
          let st : MappingTcpSocket :=
            { token := env.token
              context := env.context
              socket := some sock
              igd_children := igdSpawns.length % USIZE
              stun_children := started.toFinset
              mapped_addrs := mapped_addrs
              timeout_h := th
              finish := some () }
          let g : Core :=
            { tokenReg := true
              coordReg := some st
              childReg := started.toFinset
              signalled := ∅
              timerActive := true
              fired := [] }
          ⟨igdSpawns, started, .ok g⟩

/-! ## Invariant machinery -/

/-- The reachable-state invariant, parametrized by a property `P` of
accumulated address lists that is stable under appending: once the
coordinator is deregistered the continuation has fired exactly once, and
every fired result list satisfies `P`; while the coordinator is registered
the continuation has not fired, socket and continuation are still held,
the token registration is in place, and `P` holds of `mapped_addrs`. -/
def Inv (P : List MappedAddr → Prop) (g : Core) : Prop :=
  (g.coordReg = none → g.fired.length = 1) ∧
  (∀ r ∈ g.fired, P r.2) ∧
  ∀ s, g.coordReg = some s →
    g.fired = [] ∧ s.socket.isSome ∧ s.finish.isSome ∧ g.tokenReg = true ∧
      P s.mapped_addrs

theorem terminate_eq (s : MappingTcpSocket) (g : Core) (sock : Nat)
    (hs : s.socket = some sock) (hf : s.finish.isSome) :
    s.terminate g = some
      ({ s with stun_children := ∅, socket := none, mapped_addrs := [],
                finish := none },
       { g with signalled := g.signalled ∪ (s.stun_children ∩ g.childReg),
                tokenReg := false, coordReg := none, timerActive := false,
                fired := g.fired ++ [(sock, s.mapped_addrs)] }) := by
  obtain ⟨u, hu⟩ := Option.isSome_iff_exists.mp hf
  simp [MappingTcpSocket.terminate, hs, hu]

theorem step_dead (g : Core) (e : Event) (h : g.coordReg = none) :
    step g e = some g := by
  cases e <;> simp [step, h]

theorem run_dead (g : Core) (es : List Event) (h : g.coordReg = none) :
    run g es = some g := by
  induction es with
  | nil => rfl
  | cons e es ih => simp [run, step_dead g e h, ih]

theorem terminate_inv (P : List MappedAddr → Prop)
    (s : MappingTcpSocket) (g : Core) (sock : Nat)
    (hsk : s.socket = some sock) (hfin : s.finish.isSome) (hf : g.fired = [])
    (hP : P s.mapped_addrs) :
    ∃ g', (s.terminate g).map reinsert = some g' ∧ g'.coordReg = none ∧
      Inv P g' := by
  rw [terminate_eq s g sock hsk hfin]
  refine ⟨_, rfl, rfl, fun h => ?_, fun r hr => ?_, fun s' hs' => ?_⟩
  · simp [reinsert, hf]
  · simp only [reinsert, hf, List.nil_append, List.mem_singleton] at hr
    subst hr
    exact hP
  · simp [reinsert] at hs'

theorem reinsert_some (s' : MappingTcpSocket) (g : Core) (s : MappingTcpSocket)
    (hc : g.coordReg = some s) :
    (some (s', g)).map reinsert = some { g with coordReg := some s' } := by
  simp [reinsert, hc]

theorem handle_igd_inv (P : List MappedAddr → Prop)
    (Pmono : ∀ l x, P l → P (l ++ [x]))
    (s : MappingTcpSocket) (g : Core) (a : SocketAddrRepr)
    (sock : Nat) (hsk : s.socket = some sock) (hfin : s.finish.isSome)
    (hf : g.fired = []) (hc : g.coordReg = some s) (htok : g.tokenReg = true)
    (hP : P s.mapped_addrs) :
    ∃ g', (s.handle_igd_resp g a).map reinsert = some g' ∧ Inv P g' := by
  rw [MappingTcpSocket.handle_igd_resp]
  split
  · obtain ⟨g', h1, _, h3⟩ :=
      terminate_inv P
        { s with igd_children := (s.igd_children + (USIZE - 1)) % USIZE,
                 mapped_addrs := s.mapped_addrs ++ [MappedAddr.new a false] }
        g sock hsk hfin hf (Pmono _ _ hP)
    exact ⟨g', h1, h3⟩
  · rw [reinsert_some _ g s hc]
    refine ⟨_, rfl, fun h => ?_, fun r hr => ?_, fun s' hs' => ?_⟩
    · simp at h
    · rw [hf] at hr; simp at hr
    · simp only [Option.some.injEq] at hs'
      subst hs'
      refine ⟨hf, ?_, hfin, htok, Pmono _ _ hP⟩
      simpa using congrArg Option.isSome hsk

theorem handle_stun_inv (P : List MappedAddr → Prop)
    (Pmono : ∀ l x, P l → P (l ++ [x]))
    (s : MappingTcpSocket) (g : Core) (c : Context)
    (r : Option SocketAddrRepr)
    (sock : Nat) (hsk : s.socket = some sock) (hfin : s.finish.isSome)
    (hf : g.fired = []) (hc : g.coordReg = some s) (htok : g.tokenReg = true)
    (hP : P s.mapped_addrs) :
    ∃ g', (s.handle_stun_resp g c r).map reinsert = some g' ∧ Inv P g' := by
  cases r with
  | some a =>
    simp only [MappingTcpSocket.handle_stun_resp]
    split
    · obtain ⟨g', h1, _, h3⟩ :=
        terminate_inv P
          { s with stun_children := s.stun_children.erase c,
                   mapped_addrs := s.mapped_addrs ++ [MappedAddr.new a true] }
          g sock hsk hfin hf (Pmono _ _ hP)
      exact ⟨g', h1, h3⟩
    · rw [reinsert_some _ g s hc]
      refine ⟨_, rfl, fun h => ?_, fun r hr => ?_, fun s' hs' => ?_⟩
      · simp at h
      · rw [hf] at hr; simp at hr
      · simp only [Option.some.injEq] at hs'
        subst hs'
        refine ⟨hf, ?_, hfin, htok, Pmono _ _ hP⟩
        simpa using congrArg Option.isSome hsk
  | none =>
    simp only [MappingTcpSocket.handle_stun_resp]
    split
    · obtain ⟨g', h1, _, h3⟩ :=
        terminate_inv P
          { s with stun_children := s.stun_children.erase c }
          g sock hsk hfin hf hP
      exact ⟨g', h1, h3⟩
    · rw [reinsert_some _ g s hc]
      refine ⟨_, rfl, fun h => ?_, fun r hr => ?_, fun s' hs' => ?_⟩
      · simp at h
      · rw [hf] at hr; simp at hr
      · simp only [Option.some.injEq] at hs'
        subst hs'
        refine ⟨hf, ?_, hfin, htok, hP⟩
        simpa using congrArg Option.isSome hsk

theorem step_inv (P : List MappedAddr → Prop)
    (Pmono : ∀ l x, P l → P (l ++ [x]))
    (g : Core) (e : Event) (hg : Inv P g) :
    ∃ g', step g e = some g' ∧ Inv P g' := by
  obtain ⟨hnone, hfired, hsome⟩ := hg
  cases e with
  | igdOk a =>
    cases hc : g.coordReg with
    | none => exact ⟨g, step_dead g _ hc, hnone, hfired, hsome⟩
    | some s =>
      obtain ⟨hf, hsock, hfin, htok, hP⟩ := hsome s hc
      obtain ⟨sock, hsk⟩ := Option.isSome_iff_exists.mp hsock
      obtain ⟨g', hg', hinv⟩ :=
        handle_igd_inv P Pmono s g a sock hsk hfin hf hc htok hP
      exact ⟨g', by simpa [step, hc] using hg', hinv⟩
  | stunResp c r =>
    cases hc : g.coordReg with
    | none => exact ⟨g, step_dead g _ hc, hnone, hfired, hsome⟩
    | some s =>
      obtain ⟨hf, hsock, hfin, htok, hP⟩ := hsome s hc
      obtain ⟨sock, hsk⟩ := Option.isSome_iff_exists.mp hsock
      obtain ⟨g', hg', hinv⟩ :=
        handle_stun_inv P Pmono s g c r sock hsk hfin hf hc htok hP
      exact ⟨g', by simpa [step, hc] using hg', hinv⟩
  | timerFire =>
    cases hc : g.coordReg with
    | none => exact ⟨g, step_dead g _ hc, hnone, hfired, hsome⟩
    | some s =>
      obtain ⟨hf, hsock, hfin, htok, hP⟩ := hsome s hc
      obtain ⟨sock, hsk⟩ := Option.isSome_iff_exists.mp hsock
      rw [show step g .timerFire = (s.timeout_handler g).map reinsert by
        simp [step, hc, htok]]
      rw [MappingTcpSocket.timeout_handler]
      obtain ⟨g', h1, _, h3⟩ := terminate_inv P s g sock hsk hfin hf hP
      exact ⟨g', h1, h3⟩

theorem step_timer (P : List MappedAddr → Prop)
    (g : Core) (hg : Inv P g) :
    ∃ g', step g .timerFire = some g' ∧ g'.coordReg = none ∧ Inv P g' := by
  obtain ⟨hnone, hfired, hsome⟩ := hg
  cases hc : g.coordReg with
  | none => exact ⟨g, step_dead g _ hc, hc, hnone, hfired, hsome⟩
  | some s =>
    obtain ⟨hf, hsock, hfin, htok, hP⟩ := hsome s hc
    obtain ⟨sock, hsk⟩ := Option.isSome_iff_exists.mp hsock
    rw [show step g .timerFire = (s.timeout_handler g).map reinsert by
      simp [step, hc, htok]]
    rw [MappingTcpSocket.timeout_handler]
    exact terminate_inv P s g sock hsk hfin hf hP

theorem run_inv (P : List MappedAddr → Prop)
    (Pmono : ∀ l x, P l → P (l ++ [x]))
    (g : Core) (es : List Event) (hg : Inv P g) :
    ∃ g', run g es = some g' ∧ Inv P g' := by
  induction es generalizing g with
  | nil => exact ⟨g, rfl, hg⟩
  | cons e es ih =>
    obtain ⟨g1, h1, hg1⟩ := step_inv P Pmono g e hg
    obtain ⟨g2, h2, hg2⟩ := ih g1 hg1
    exact ⟨g2, by simp [run, h1, h2], hg2⟩

theorem run_append (g : Core) (as bs : List Event) :
    run g (as ++ bs) = (run g as).bind (fun g' => run g' bs) := by
  induction as generalizing g with
  | nil => simp [run]
  | cons a as ih =>
    cases h : step g a with
    | none => simp [run, h]
    | some g1 => simp [run, h, ih]

theorem start_inv (P : List MappedAddr → Prop)
    (port : Nat) (mc : MappingContext) (env : Env) (g0 : Core)
    (h : (start port mc env).outcome = .ok g0)
    (hP0 : ∀ addr : SocketAddrRepr, env.addrRes = .ok addr →
      P (mc.ifv4s.map (fun p => MappedAddr.new ⟨p.1, addr.port⟩ false))) :
    Inv P g0 := by
  unfold start at h
  rcases hb : env.bindRes with e | sock <;> rw [hb] at h
  · simp at h
  rcases ha : env.addrRes with e | addr <;> rw [ha] at h
  · simp at h
  rcases ht : env.timerRes with e | th <;> rw [ht] at h
  · simp at h
  rcases hsl : stunLoop env mc.peer_listeners 0 [] with ⟨started, oerr⟩
  rw [hsl] at h
  cases oerr with
  | some e => simp at h
  | none =>
    simp only [Except.ok.injEq] at h
    subst h
    refine ⟨fun hcontra => by simp at hcontra, fun r hr => by simp at hr,
      fun s hs => ?_⟩
    simp only [Option.some.injEq] at hs
    subst hs
    exact ⟨rfl, rfl, rfl, rfl, hP0 addr ha⟩

theorem start_ok_coord (port : Nat) (mc : MappingContext) (env : Env)
    (g0 : Core) (h : (start port mc env).outcome = .ok g0) :
    ∃ addr s0, env.addrRes = .ok addr ∧ g0.coordReg = some s0 ∧
      s0.mapped_addrs =
        mc.ifv4s.map (fun p => MappedAddr.new ⟨p.1, addr.port⟩ false) := by
  unfold start at h
  rcases hb : env.bindRes with e | sock <;> rw [hb] at h
  · simp at h
  rcases ha : env.addrRes with e | addr <;> rw [ha] at h
  · simp at h
  rcases ht : env.timerRes with e | th <;> rw [ht] at h
  · simp at h
  rcases hsl : stunLoop env mc.peer_listeners 0 [] with ⟨started, oerr⟩
  rw [hsl] at h
  cases oerr with
  | some e => simp at h
  | none =>
    simp only [Except.ok.injEq] at h
    subst h
    exact ⟨addr, _, rfl, rfl, rfl⟩

theorem stunLoop_error (env : Env) (peers : List SocketAddrRepr) (i : Nat)
    (acc started : List Context) (e : Err)
    (h : stunLoop env peers i acc = (started, some e)) :
    ∃ j, j < peers.length ∧ env.peerSock (i + j) = .error e := by
  induction peers generalizing i acc with
  | nil => simp [stunLoop] at h
  | cons p rest ih =>
    simp only [stunLoop] at h
    rcases hps : env.peerSock i with e' | sockv <;> rw [hps] at h
    · simp only [Prod.mk.injEq, Option.some.injEq] at h
      exact ⟨0, by simp, by rw [Nat.add_zero, hps, h.2]⟩
    · rcases hpc : env.peerChild i with e'' | child <;> rw [hpc] at h
      · obtain ⟨j, hj, hje⟩ := ih (i + 1) acc h
        exact ⟨j + 1, by simpa using hj,
          by rw [show i + (j + 1) = i + 1 + j by omega]; exact hje⟩
      · obtain ⟨j, hj, hje⟩ := ih (i + 1) (acc ++ [child]) h
        exact ⟨j + 1, by simpa using hj,
          by rw [show i + (j + 1) = i + 1 + j by omega]; exact hje⟩

theorem stunLoop_ok (env : Env) (peers : List SocketAddrRepr) (i : Nat)
    (acc : List Context)
    (h : ∀ j, j < peers.length → ∃ x, env.peerSock (i + j) = .ok x) :
    stunLoop env peers i acc =
      (acc ++ (List.range peers.length).filterMap
        (fun j => (env.peerChild (i + j)).toOption), none) := by
  induction peers generalizing i acc with
  | nil => simp [stunLoop]
  | cons p rest ih =>
    obtain ⟨x, hx⟩ := h 0 (by simp)
    rw [Nat.add_zero] at hx
    have hrest : ∀ j, j < rest.length → ∃ x, env.peerSock (i + 1 + j) = .ok x := by
      intro j hj
      obtain ⟨x, hx⟩ := h (j + 1) (by simpa using Nat.succ_lt_succ hj)
      exact ⟨x, by rwa [show i + (j + 1) = i + 1 + j by omega] at hx⟩
    have hfun : ∀ acc', stunLoop env rest (i + 1) acc' =
        (acc' ++ (List.range rest.length).filterMap
          (fun j => (env.peerChild (i + 1 + j)).toOption), none) :=
      fun acc' => ih (i + 1) acc' hrest
    have hshift : (List.range (rest.length + 1)).filterMap
        (fun j => (env.peerChild (i + j)).toOption) =
        (env.peerChild i).toOption.toList ++
          (List.range rest.length).filterMap
            (fun j => (env.peerChild (i + 1 + j)).toOption) := by
      rw [List.range_succ_eq_map, List.filterMap_cons, List.filterMap_map]
      have : ((fun j => (env.peerChild (i + j)).toOption) ∘ Nat.succ) =
          (fun j => (env.peerChild (i + 1 + j)).toOption) := by
        funext j
        simp only [Function.comp]
        rw [show i + Nat.succ j = i + 1 + j by omega]
      rw [this, Nat.add_zero]
      rcases env.peerChild i with e | c <;> simp [Except.toOption]
    simp only [stunLoop, hx]
    rcases hpc : env.peerChild i with e | child <;>
      simp only [hfun, List.length_cons, hshift, hpc] <;>
      simp [Except.toOption]

theorem start_spawns (port : Nat) (mc : MappingContext) (env : Env)
    (sock : Nat) (addr : SocketAddrRepr)
    (hb : env.bindRes = .ok sock) (ha : env.addrRes = .ok addr) :
    (start port mc env).igdSpawns =
      mc.ifv4s.filterMap (fun p => p.2.map (fun _ => (p.1, addr.port))) := by
  unfold start
  rw [hb, ha]
  rcases env.timerRes with e | th
  · rfl
  · rcases stunLoop env mc.peer_listeners 0 [] with ⟨started, oerr⟩
    cases oerr <;> rfl

/-! ## Claim theorems -/

/-- Claim C1: for every configuration accepted by `start` and every
interleaving of gateway-worker successes, reflection-child results and the
timer firing (the timer fires eventually unless cancelled, and a delivery
after cancellation no-ops, so every complete trace contains the timer
event), the continuation is invoked exactly once over the object's
lifetime: the final trace has exactly one `fired` entry, and every prefix
has at most one.  `terminate` is the unique path: it is the only operation
in the model that appends to `fired`. -/
theorem continuation_fires_exactly_once
    (port : Nat) (mc : MappingContext) (env : Env) (g0 : Core)
    (es : List Event)
    (hstart : (start port mc env).outcome = .ok g0)
    (htimer : Event.timerFire ∈ es) :
    ∃ g', run g0 es = some g' ∧ g'.fired.length = 1 ∧
      ∀ pre suf, es = pre ++ suf →
        ∃ gp, run g0 pre = some gp ∧ gp.fired.length ≤ 1 := by
  have hmono : ∀ l x, (fun _ : List MappedAddr => True) l →
      (fun _ : List MappedAddr => True) (l ++ [x]) := fun _ _ _ => trivial
  have hinv : Inv (fun _ => True) g0 :=
    start_inv _ port mc env g0 hstart (fun _ _ => trivial)
  obtain ⟨l1, l2, rfl⟩ := List.append_of_mem htimer
  obtain ⟨g1, h1, hg1⟩ := run_inv _ hmono g0 l1 hinv
  obtain ⟨g2, h2, hc2, hg2⟩ := step_timer _ g1 hg1
  have h3 : run g2 l2 = some g2 := run_dead g2 l2 hc2
  refine ⟨g2, ?_, hg2.1 hc2, ?_⟩
  · rw [run_append, h1]
    simp [run, h2, h3]
  · intro pre suf hps
    obtain ⟨gp, hp, hgp⟩ := run_inv _ hmono g0 pre hinv
    refine ⟨gp, hp, ?_⟩
    obtain ⟨hn, _, hs⟩ := hgp
    cases hcp : gp.coordReg with
    | none => exact le_of_eq (hn hcp)
    | some s => rw [(hs s hcp).1]; simp

/-- Concrete environment for the C1 witness. -/
def w1env : Env :=
  { bindRes := .ok 11, addrRes := .ok ⟨0, 4000⟩, timerRes := .ok 5,
    peerSock := fun _ => .ok 0, peerChild := fun i => .ok (100 + i),
    token := 1, context := 2 }

/-- Concrete mapping context for the C1 witness. -/
def w1mc : MappingContext := ⟨[(7, some 3)], []⟩

/-- The state `start` registers for the C1 witness configuration. -/
def w1g0 : Core :=
  { tokenReg := true
    coordReg := some
      { token := 1, context := 2, socket := some 11, igd_children := 1,
        stun_children := ∅, mapped_addrs := [MappedAddr.new ⟨7, 4000⟩ false],
        timeout_h := 5, finish := some () }
    childReg := ∅
    signalled := ∅
    timerActive := true
    fired := [] }

/-- Witness for C1: one gateway worker, no peers; the worker succeeds and
then the timer fires. -/
theorem continuation_fires_exactly_once_witness :
    (start 0 w1mc w1env).outcome = .ok w1g0 ∧
    Event.timerFire ∈ [Event.igdOk ⟨5, 6⟩, Event.timerFire] ∧
    (∃ g', run w1g0 [Event.igdOk ⟨5, 6⟩, Event.timerFire] = some g' ∧
      g'.fired.length = 1 ∧
      ∀ pre suf, [Event.igdOk ⟨5, 6⟩, Event.timerFire] = pre ++ suf →
        ∃ gp, run w1g0 pre = some gp ∧ gp.fired.length ≤ 1) :=
  ⟨by rfl, by simp,
    continuation_fires_exactly_once 0 w1mc w1env w1g0 _ (by rfl) (by simp)⟩

/-- Claim C4: on every state with at least one outstanding gateway worker
(the only states a gateway response can reach), `handle_igd_resp`
decrements `igd_children` by one, appends a non-reflected `MappedAddr`
with the delivered address, leaves everything else unchanged, and calls
`terminate` exactly when the total outstanding count
`igd_children + |stun_children|` has become zero. -/
theorem handle_gateway_result_spec (s : MappingTcpSocket) (g : Core)
    (a : SocketAddrRepr)
    (h1 : 0 < s.igd_children) (h2 : s.igd_children < USIZE) :
    s.handle_igd_resp g a =
      (let s1 : MappingTcpSocket :=
        { s with igd_children := s.igd_children - 1,
                 mapped_addrs := s.mapped_addrs ++ [MappedAddr.new a false] }
       if s1.igd_children + s1.stun_children.card = 0 then s1.terminate g
       else some (s1, g)) := by
  have h64 : USIZE = 18446744073709551616 := by norm_num [USIZE]
  have hmod : (s.igd_children + (USIZE - 1)) % USIZE = s.igd_children - 1 := by
    rw [h64]
    rw [h64] at h2
    omega
  simp only [MappingTcpSocket.handle_igd_resp, hmod]
  refine if_congr ?_ rfl rfl
  constructor
  · rintro ⟨he, hz⟩
    simp [he, hz]
  · intro h
    simp only at h
    exact ⟨Finset.card_eq_zero.mp (by omega), by omega⟩

/-- Concrete state for the C4 witness. -/
def w4s : MappingTcpSocket :=
  { token := 1, context := 2, socket := some 3, igd_children := 2,
    stun_children := ∅, mapped_addrs := [], timeout_h := 4,
    finish := some () }

/-- Concrete global state for the C4 witness. -/
def w4g : Core :=
  { tokenReg := true, coordReg := some w4s, childReg := ∅, signalled := ∅,
    timerActive := true, fired := [] }

/-- Witness for C4 at a concrete state with two outstanding workers. -/
theorem handle_gateway_result_spec_witness :
    0 < w4s.igd_children ∧ w4s.igd_children < USIZE ∧
    w4s.handle_igd_resp w4g ⟨5, 6⟩ =
      (let s1 : MappingTcpSocket :=
        { w4s with igd_children := w4s.igd_children - 1,
                   mapped_addrs := w4s.mapped_addrs ++
                     [MappedAddr.new ⟨5, 6⟩ false] }
       if s1.igd_children + s1.stun_children.card = 0 then s1.terminate w4g
       else some (s1, w4g)) :=
  ⟨by decide, by decide,
    handle_gateway_result_spec w4s w4g ⟨5, 6⟩ (by decide) (by decide)⟩

/-- Claim C5: `handle_stun_resp` removes the child from `stun_children`
before the result is examined; a success appends a reflected `MappedAddr`,
a failure appends nothing; everything else is unchanged; `terminate` is
called exactly when the total outstanding count has become zero. -/
theorem handle_reflection_result_spec (s : MappingTcpSocket) (g : Core)
    (child : Context) (res : Option SocketAddrRepr) :
    s.handle_stun_resp g child res =
      (let s1 : MappingTcpSocket :=
        { s with stun_children := s.stun_children.erase child,
                 mapped_addrs := s.mapped_addrs ++
                   (match res with
                    | some a => [MappedAddr.new a true]
                    | none => []) }
       if s1.igd_children + s1.stun_children.card = 0 then s1.terminate g
       else some (s1, g)) := by
  cases res with
  | some a =>
    simp only [MappingTcpSocket.handle_stun_resp]
    refine if_congr ?_ rfl rfl
    constructor
    · rintro ⟨he, hz⟩
      simp [he, hz]
    · intro h
      simp only at h
      exact ⟨Finset.card_eq_zero.mp (by omega), by omega⟩
  | none =>
    simp only [MappingTcpSocket.handle_stun_resp, List.append_nil]
    refine if_congr ?_ rfl rfl
    constructor
    · rintro ⟨he, hz⟩
      simp [he, hz]
    · intro h
      simp only at h
      exact ⟨Finset.card_eq_zero.mp (by omega), by omega⟩

/-- Claim C6: the timeout handler runs `terminate` unconditionally (no
check of the outstanding count), and `terminate` signals every
still-outstanding reflection child (all of which are registered), removes
the coordinator's token and context from the registry, cancels the timer,
takes the socket, drains `mapped_addrs`, and invokes the continuation with
exactly that socket and that drained list. -/
theorem timeout_and_terminate_spec (s : MappingTcpSocket) (g : Core)
    (sock : Nat) (hs : s.socket = some sock) (hf : s.finish.isSome)
    (hreg : s.stun_children ⊆ g.childReg) :
    s.timeout_handler g = s.terminate g ∧
    s.terminate g = some (
      { s with stun_children := ∅, socket := none, mapped_addrs := [],
               finish := none },
      { g with signalled := g.signalled ∪ s.stun_children,
               tokenReg := false, coordReg := none, timerActive := false,
               fired := g.fired ++ [(sock, s.mapped_addrs)] }) := by
  refine ⟨rfl, ?_⟩
  rw [terminate_eq s g sock hs hf, Finset.inter_eq_left.mpr hreg]

/-- Concrete state for the C6 witness: two children still outstanding. -/
def w6s : MappingTcpSocket :=
  { token := 1, context := 2, socket := some 3, igd_children := 1,
    stun_children := {8, 9}, mapped_addrs := [MappedAddr.new ⟨7, 4000⟩ false],
    timeout_h := 4, finish := some () }

/-- Concrete global state for the C6 witness. -/
def w6g : Core :=
  { tokenReg := true, coordReg := some w6s, childReg := {8, 9, 10},
    signalled := ∅, timerActive := true, fired := [] }

/-- Witness for C6 at a concrete state with outstanding children. -/
theorem timeout_and_terminate_spec_witness :
    w6s.socket = some 3 ∧ w6s.finish.isSome ∧
    w6s.stun_children ⊆ w6g.childReg ∧
    (w6s.timeout_handler w6g = w6s.terminate w6g ∧
     w6s.terminate w6g = some (
       { w6s with stun_children := ∅, socket := none, mapped_addrs := [],
                  finish := none },
       { w6g with signalled := w6g.signalled ∪ w6s.stun_children,
                  tokenReg := false, coordReg := none, timerActive := false,
                  fired := w6g.fired ++ [(3, w6s.mapped_addrs)] })) :=
  ⟨by decide, by decide, by decide,
    timeout_and_terminate_spec w6s w6g 3 (by decide) (by decide) (by decide)⟩

/-- Claim C8: a gateway-worker delivery that no longer finds the
coordinator's context in the registry, and a reflection-child callback
whose weak self-reference no longer upgrades (both modelled by
`coordReg = none`, since the registry holds the sole strong reference),
leave the whole state unchanged — no mutation and no second continuation
invocation. -/
theorem stale_callback_noop (g : Core) (a : SocketAddrRepr) (c : Context)
    (r : Option SocketAddrRepr) (h : g.coordReg = none) :
    step g (.igdOk a) = some g ∧ step g (.stunResp c r) = some g :=
  ⟨step_dead g _ h, step_dead g _ h⟩

/-- Concrete deregistered global state for the C8 witness. -/
def w8g : Core :=
  { tokenReg := false, coordReg := none, childReg := ∅, signalled := ∅,
    timerActive := false, fired := [(3, [MappedAddr.new ⟨7, 4000⟩ false])] }

/-- Witness for C8 on a concrete deregistered state. -/
theorem stale_callback_noop_witness :
    w8g.coordReg = none ∧
    (step w8g (.igdOk ⟨5, 6⟩) = some w8g ∧
     step w8g (.stunResp 8 (some ⟨5, 6⟩)) = some w8g) :=
  ⟨by decide, stale_callback_noop w8g ⟨5, 6⟩ 8 (some ⟨5, 6⟩) (by decide)⟩

/-- Claim C10: `terminate` is not internally re-entrant-safe: any state
produced by a successful `terminate` has `socket = none` and
`finish = none`, so invoking `terminate` on it again panics (the
`expect`/`unwrap` on the takes, modelled by `none`) — no internal flag
guards against a second run; single invocation rests on deregistration
alone. -/
theorem terminate_not_reentrant (s : MappingTcpSocket) (g g2 : Core)
    (s' : MappingTcpSocket) (g' : Core)
    (h : s.terminate g = some (s', g')) :
    s'.terminate g2 = none := by
  rcases hsk : s.socket with _ | sock
  · simp [MappingTcpSocket.terminate, hsk] at h
  · rcases hfin : s.finish with _ | u
    · simp [MappingTcpSocket.terminate, hsk, hfin] at h
    · simp only [MappingTcpSocket.terminate, hsk, hfin, Option.some.injEq,
        Prod.mk.injEq] at h
      obtain ⟨h1, h2⟩ := h
      subst h1
      simp [MappingTcpSocket.terminate]

/-- Concrete state for the C10 witness. -/
def w10s : MappingTcpSocket :=
  { token := 1, context := 2, socket := some 3, igd_children := 0,
    stun_children := ∅, mapped_addrs := [], timeout_h := 4,
    finish := some () }

/-- Concrete global state for the C10 witness. -/
def w10g : Core :=
  { tokenReg := true, coordReg := some w10s, childReg := ∅, signalled := ∅,
    timerActive := true, fired := [] }

/-- Witness for C10: a first `terminate` succeeds, the second panics. -/
theorem terminate_not_reentrant_witness :
    w10s.terminate w10g = some
      ({ w10s with stun_children := ∅, socket := none, mapped_addrs := [],
                   finish := none },
       { w10g with signalled := ∅, tokenReg := false, coordReg := none,
                   timerActive := false, fired := [(3, [])] }) ∧
    ({ w10s with stun_children := (∅ : Finset Context), socket := none,
                 mapped_addrs := [], finish := none
      : MappingTcpSocket }).terminate w10g = none :=
  ⟨by decide,
    terminate_not_reentrant w10s w10g w10g
      { w10s with stun_children := ∅, socket := none, mapped_addrs := [],
                  finish := none }
      { w10g with signalled := ∅, tokenReg := false, coordReg := none,
                  timerActive := false, fired := [(3, [])] }
      (by decide)⟩

/-- Concrete environment for the C2 counterexample: timer registration
fails after the gateway worker for interface 7 was spawned. -/
def c2env : Env :=
  { bindRes := .ok 11, addrRes := .ok ⟨0, 4000⟩, timerRes := .error 9,
    peerSock := fun _ => .ok 0, peerChild := fun i => .ok (100 + i),
    token := 1, context := 2 }

/-- Claim C2 counterexample: with one gateway-carrying interface and a
failing timer registration, `start` returns a synchronous error even
though a gateway worker has already been spawned — refuting that the error
branch of `start` is reached before any child exists. -/
theorem start_error_after_spawn_counterexample :
    (start 0 ⟨[(7, some 3)], []⟩ c2env).outcome = .error 9 ∧
    (start 0 ⟨[(7, some 3)], []⟩ c2env).igdSpawns = [(7, 4000)] :=
  ⟨rfl, rfl⟩

/-- Claim C2 amended: a synchronous error from `start` is caused by the
main-socket bind, the local-address resolution, the timer registration, or
a per-peer reflection-socket bind/connect failure; bind and
address-resolution failures occur before any child is spawned, while
timer-registration and per-peer failures can occur after gateway workers
(and, for per-peer failures, earlier reflection children) exist. -/
theorem start_error_causes (port : Nat) (mc : MappingContext) (env : Env)
    (e : Err) (h : (start port mc env).outcome = .error e) :
    (env.bindRes = .error e ∨ env.addrRes = .error e ∨
     env.timerRes = .error e ∨
     ∃ j, j < mc.peer_listeners.length ∧ env.peerSock j = .error e) ∧
    ((env.bindRes = .error e ∨ env.addrRes = .error e) →
      (start port mc env).igdSpawns = [] ∧
      (start port mc env).stunStarted = []) := by
  rcases hb : env.bindRes with eb | sock
  · have ho : (start port mc env).outcome = .error eb := by
      unfold start
      rw [hb]
    have heb : eb = e := by
      rw [ho] at h
      simpa using h
    subst heb
    refine ⟨Or.inl rfl, fun _ => ⟨?_, ?_⟩⟩ <;> (unfold start; rw [hb])
  · rcases ha : env.addrRes with ea | addr
    · have ho : (start port mc env).outcome = .error ea := by
        unfold start
        rw [hb, ha]
      have hea : ea = e := by
        rw [ho] at h
        simpa using h
      subst hea
      refine ⟨Or.inr (Or.inl rfl), fun _ => ⟨?_, ?_⟩⟩ <;>
        (unfold start; rw [hb, ha])
    · constructor
      · rcases ht : env.timerRes with et | th
        · have ho : (start port mc env).outcome = .error et := by
            unfold start
            rw [hb, ha, ht]
          have het : et = e := by
            rw [ho] at h
            simpa using h
          subst het
          exact Or.inr (Or.inr (Or.inl rfl))
        · rcases hsl : stunLoop env mc.peer_listeners 0 [] with ⟨started, oerr⟩
          cases oerr with
          | none =>
            have ho : ∃ g, (start port mc env).outcome = .ok g := by
              unfold start
              rw [hb, ha, ht, hsl]
              exact ⟨_, rfl⟩
            obtain ⟨g, hg⟩ := ho
            rw [hg] at h
            simp at h
          | some e' =>
            have ho : (start port mc env).outcome = .error e' := by
              unfold start
              rw [hb, ha, ht, hsl]
            have hee : e' = e := by
              rw [ho] at h
              simpa using h
            subst hee
            obtain ⟨j, hj, hje⟩ := stunLoop_error env mc.peer_listeners 0 []
              started e' hsl
            exact Or.inr (Or.inr (Or.inr ⟨j, hj, by simpa using hje⟩))
      · rintro (hcb | hca)
        · exact absurd hcb (by simp)
        · exact absurd hca (by simp)

/-- Concrete environment for the C2 amended-claim witness: the main bind
fails. -/
def w2env : Env :=
  { bindRes := .error 5, addrRes := .ok ⟨0, 4000⟩, timerRes := .ok 4,
    peerSock := fun _ => .ok 0, peerChild := fun i => .ok (100 + i),
    token := 1, context := 2 }

/-- Witness for the C2 amended claim at a concrete bind failure. -/
theorem start_error_causes_witness :
    (start 0 ⟨[(7, some 3)], []⟩ w2env).outcome = .error 5 ∧
    ((w2env.bindRes = .error 5 ∨ w2env.addrRes = .error 5 ∨
      w2env.timerRes = .error 5 ∨
      ∃ j, j < (⟨[(7, some 3)], []⟩ : MappingContext).peer_listeners.length ∧
        w2env.peerSock j = .error 5) ∧
     ((w2env.bindRes = .error 5 ∨ w2env.addrRes = .error 5) →
       (start 0 ⟨[(7, some 3)], []⟩ w2env).igdSpawns = [] ∧
       (start 0 ⟨[(7, some 3)], []⟩ w2env).stunStarted = [])) :=
  ⟨rfl, start_error_causes 0 ⟨[(7, some 3)], []⟩ w2env 5 rfl⟩

/-- Concrete environment for the C3 counterexample: the per-peer socket
setup (bind / to-stream / connect) fails. -/
def c3env : Env :=
  { bindRes := .ok 11, addrRes := .ok ⟨0, 4000⟩, timerRes := .ok 5,
    peerSock := fun _ => .error 5, peerChild := fun i => .ok (100 + i),
    token := 1, context := 2 }

/-- Claim C3 counterexample: a per-peer socket bind/connect failure is
surfaced as a synchronous error from `start` (the `try!`s at mod.rs lines
122-124), not silently skipped with an `Ok` return. -/
theorem peer_connect_failure_surfaces_counterexample :
    (start 0 ⟨[], [⟨9, 9⟩]⟩ c3env).outcome = .error 5 := rfl

/-- Claim C3 amended: only a `GetExtAddr::start` (child-start) failure is
silently skipped — with the per-peer socket setups succeeding, `start`
returns `Ok` and the started children are exactly those peers whose
child-start succeeded; a bind/connect failure of the per-peer socket is
instead surfaced as an error from `start`. -/
theorem peer_child_start_failure_skipped (port : Nat) (mc : MappingContext)
    (env : Env) (sock : Nat) (addr : SocketAddrRepr) (th : Nat)
    (hb : env.bindRes = .ok sock) (ha : env.addrRes = .ok addr)
    (ht : env.timerRes = .ok th)
    (hps : ∀ j, j < mc.peer_listeners.length → ∃ x, env.peerSock j = .ok x) :
    (∃ g, (start port mc env).outcome = .ok g) ∧
    (start port mc env).stunStarted =
      (List.range mc.peer_listeners.length).filterMap
        (fun j => (env.peerChild j).toOption) := by
  have hsl := stunLoop_ok env mc.peer_listeners 0 []
    (fun j hj => by simpa using hps j hj)
  have hz : (fun j => (env.peerChild (0 + j)).toOption) =
      (fun j => (env.peerChild j).toOption) :=
    funext fun j => by rw [Nat.zero_add]
  rw [hz] at hsl
  unfold start
  rw [hb, ha, ht, hsl]
  exact ⟨⟨_, rfl⟩, by simp⟩

/-- Concrete environment for the C3 amended-claim witness: peer 0's child
start fails, peer 1's succeeds. -/
def w3env : Env :=
  { bindRes := .ok 11, addrRes := .ok ⟨0, 4000⟩, timerRes := .ok 5,
    peerSock := fun _ => .ok 0,
    peerChild := fun i => if i = 0 then .error 7 else .ok (100 + i),
    token := 1, context := 2 }

/-- Witness for the C3 amended claim: two peers, the first child start
fails and is skipped, `start` still succeeds. -/
theorem peer_child_start_failure_skipped_witness :
    w3env.bindRes = .ok 11 ∧ w3env.addrRes = .ok ⟨0, 4000⟩ ∧
    w3env.timerRes = .ok 5 ∧
    (∀ j, j < (⟨[], [⟨9, 9⟩, ⟨9, 10⟩]⟩ : MappingContext).peer_listeners.length →
      ∃ x, w3env.peerSock j = .ok x) ∧
    ((∃ g, (start 0 ⟨[], [⟨9, 9⟩, ⟨9, 10⟩]⟩ w3env).outcome = .ok g) ∧
     (start 0 ⟨[], [⟨9, 9⟩, ⟨9, 10⟩]⟩ w3env).stunStarted =
       (List.range
         (⟨[], [⟨9, 9⟩, ⟨9, 10⟩]⟩ : MappingContext).peer_listeners.length).filterMap
         (fun j => (w3env.peerChild j).toOption)) :=
  ⟨rfl, rfl, rfl, fun j _ => ⟨0, rfl⟩,
    peer_child_start_failure_skipped 0 ⟨[], [⟨9, 9⟩, ⟨9, 10⟩]⟩ w3env 11
      ⟨0, 4000⟩ 5 rfl rfl rfl (fun j _ => ⟨0, rfl⟩)⟩

/-- Claim C7: after a successful `start`, `mapped_addrs` holds exactly one
optimistic (`via_reflection = false`) entry per configured interface —
gateway or not — carrying the resolved port; and whatever events are then
delivered (including traces where every discovery fails), every list ever
handed to the continuation begins with exactly these seeded entries. -/
theorem optimistic_seeds (port : Nat) (mc : MappingContext) (env : Env)
    (g0 : Core) (aip rport : Nat)
    (hstart : (start port mc env).outcome = .ok g0)
    (ha : env.addrRes = .ok ⟨aip, rport⟩) :
    ∃ s0, g0.coordReg = some s0 ∧
      s0.mapped_addrs =
        mc.ifv4s.map (fun p => MappedAddr.new ⟨p.1, rport⟩ false) ∧
      ∀ es g', run g0 es = some g' →
        ∀ r ∈ g'.fired, ∃ t,
          r.2 = mc.ifv4s.map (fun p => MappedAddr.new ⟨p.1, rport⟩ false)
            ++ t := by
  obtain ⟨addr, s0, ha', hc0, hm0⟩ := start_ok_coord port mc env g0 hstart
  rw [ha] at ha'
  simp only [Except.ok.injEq] at ha'
  subst ha'
  refine ⟨s0, hc0, hm0, ?_⟩
  have hmono : ∀ l x,
      (fun l => ∃ t, l =
        mc.ifv4s.map (fun p => MappedAddr.new ⟨p.1, rport⟩ false) ++ t) l →
      (fun l => ∃ t, l =
        mc.ifv4s.map (fun p => MappedAddr.new ⟨p.1, rport⟩ false) ++ t)
        (l ++ [x]) := by
    rintro l x ⟨t, htt⟩
    exact ⟨t ++ [x], by rw [htt, List.append_assoc]⟩
  have hinv : Inv (fun l => ∃ t, l =
      mc.ifv4s.map (fun p => MappedAddr.new ⟨p.1, rport⟩ false) ++ t) g0 := by
    refine start_inv _ port mc env g0 hstart ?_
    intro addr' ha''
    rw [ha] at ha''
    simp only [Except.ok.injEq] at ha''
    subst ha''
    exact ⟨[], by simp⟩
  intro es g' hrun r hr
  obtain ⟨g'', hrun'', hinv''⟩ := run_inv _ hmono g0 es hinv
  rw [hrun] at hrun''
  simp only [Option.some.injEq] at hrun''
  subst hrun''
  exact hinv''.2.1 r hr

/-- Concrete environment for the C7 witness. -/
def w7env : Env :=
  { bindRes := .ok 11, addrRes := .ok ⟨0, 4000⟩, timerRes := .ok 5,
    peerSock := fun _ => .ok 0, peerChild := fun i => .ok (100 + i),
    token := 1, context := 2 }

/-- Concrete mapping context for the C7 witness: two interfaces, one with
a gateway. -/
def w7mc : MappingContext := ⟨[(7, some 3), (8, none)], []⟩

/-- The state `start` registers for the C7 witness configuration. -/
def w7g0 : Core :=
  { tokenReg := true
    coordReg := some
      { token := 1, context := 2, socket := some 11, igd_children := 1,
        stun_children := ∅,
        mapped_addrs := [MappedAddr.new ⟨7, 4000⟩ false,
                         MappedAddr.new ⟨8, 4000⟩ false],
        timeout_h := 5, finish := some () }
    childReg := ∅
    signalled := ∅
    timerActive := true
    fired := [] }

/-- Witness for C7 at a concrete two-interface configuration. -/
theorem optimistic_seeds_witness :
    (start 0 w7mc w7env).outcome = .ok w7g0 ∧
    w7env.addrRes = .ok ⟨0, 4000⟩ ∧
    (∃ s0, w7g0.coordReg = some s0 ∧
      s0.mapped_addrs =
        w7mc.ifv4s.map (fun p => MappedAddr.new ⟨p.1, 4000⟩ false) ∧
      ∀ es g', run w7g0 es = some g' →
        ∀ r ∈ g'.fired, ∃ t,
          r.2 = w7mc.ifv4s.map (fun p => MappedAddr.new ⟨p.1, 4000⟩ false)
            ++ t) :=
  ⟨by rfl, rfl, optimistic_seeds 0 w7mc w7env w7g0 0 4000 (by rfl) rfl⟩

/-- Claim C9: both the per-gateway mapping requests handed to the spawned
workers and the seeded optimistic candidates carry the actually resolved
bound port of the socket — whatever `start`'s requested `port` argument
was, including 0 — each paired with the corresponding interface's IPv4
address. -/
theorem resolved_port_used (port : Nat) (mc : MappingContext) (env : Env)
    (sock aip rport : Nat)
    (hb : env.bindRes = .ok sock) (ha : env.addrRes = .ok ⟨aip, rport⟩) :
    (start port mc env).igdSpawns =
      mc.ifv4s.filterMap (fun p => p.2.map (fun _ => (p.1, rport))) ∧
    ∀ g0, (start port mc env).outcome = .ok g0 →
      ∃ s0, g0.coordReg = some s0 ∧
        s0.mapped_addrs =
          mc.ifv4s.map (fun p => MappedAddr.new ⟨p.1, rport⟩ false) := by
  constructor
  · exact start_spawns port mc env sock ⟨aip, rport⟩ hb ha
  · intro g0 h0
    obtain ⟨addr, s0, ha', hc0, hm0⟩ := start_ok_coord port mc env g0 h0
    rw [ha] at ha'
    simp only [Except.ok.injEq] at ha'
    subst ha'
    exact ⟨s0, hc0, hm0⟩

/-- Concrete environment for the C9 witness: requested port 0, resolved
port 4000. -/
def w9env : Env :=
  { bindRes := .ok 11, addrRes := .ok ⟨0, 4000⟩, timerRes := .ok 5,
    peerSock := fun _ => .ok 0, peerChild := fun i => .ok (100 + i),
    token := 1, context := 2 }

/-- Concrete mapping context for the C9 witness. -/
def w9mc : MappingContext := ⟨[(7, some 3), (8, none)], []⟩

/-- Witness for C9: with requested port 0, spawned gateway requests and
seeds both carry the resolved port 4000. -/
theorem resolved_port_used_witness :
    w9env.bindRes = .ok 11 ∧ w9env.addrRes = .ok ⟨0, 4000⟩ ∧
    ((start 0 w9mc w9env).igdSpawns =
      w9mc.ifv4s.filterMap (fun p => p.2.map (fun _ => (p.1, 4000))) ∧
     ∀ g0, (start 0 w9mc w9env).outcome = .ok g0 →
       ∃ s0, g0.coordReg = some s0 ∧
         s0.mapped_addrs =
           w9mc.ifv4s.map (fun p => MappedAddr.new ⟨p.1, 4000⟩ false)) :=
  ⟨rfl, rfl, resolved_port_used 0 w9mc w9env 11 0 4000 rfl rfl⟩

end Crust
